import Mathlib

/-!
Verification development for the RAG chatbot core (Supabase edge functions).

The JavaScript/TypeScript source is shallowly embedded:
* JS strings handled by the chunker are modelled as `List Char` (`JStr`),
  with `jsTrim`, `splitP` (split on a character predicate, keeping empty
  segments, as JS `String.split` does) and `List.intercalate [' ']`
  (JS `Array.join(' ')`) as the string operations.
* Database rows are in-memory lists; only the columns the functions read
  are modelled.
* Remote services (embedding endpoint, chat endpoint, vector RPC) are
  oracles passed in as parameters; loops whose termination depends on the
  remote service take an explicit fuel argument and return `none` when the
  fuel runs out (i.e. when the real loop would still be running).
-/

/-- JS strings, modelled as lists of characters. -/
abbrev JStr := List Char

/-- JS `String.prototype.trim()`: drop leading and trailing whitespace. -/
def jsTrim (s : JStr) : JStr :=
  ((s.dropWhile Char.isWhitespace).reverse.dropWhile Char.isWhitespace).reverse

/-- JS `String.prototype.split` on a character class: every character
satisfying `p` is a separator; adjacent separators produce empty segments
(exactly as JS `split(' ')` or splitting on a single-char regex does). -/
def splitP (p : Char → Bool) : JStr → List JStr
  | [] => [[]]
  | c :: rest =>
    if p c then [] :: splitP p rest
    else
      match splitP p rest with
      | [] => [[c]]
      | s :: ss => (c :: s) :: ss

/-- Sentence candidates of `splitTextIntoChunks`
(source: `text.split(/[.!?]+/).filter(s => s.trim().length > 0)`).
Splitting on the single separator characters and then filtering the
whitespace-only segments yields the same list as the `+`-collapsing regex,
because the extra segments produced between adjacent separators are empty
and are removed by the same filter. -/
def sentencesOf (text : JStr) : List JStr :=
  (splitP (fun c => c = '.' || c = '!' || c = '?') text).filter
    (fun s => 0 < (jsTrim s).length)

/-- One iteration of the sentence loop in `splitTextIntoChunks`
(source part_004, lines 499-513).  State: (chunks so far, current buffer). -/
def chunkStep (chunkSize overlap : Nat) (st : List JStr × JStr) (sentence : JStr) :
    List JStr × JStr :=
  let t := jsTrim sentence
  if t.length = 0 then st
  else if chunkSize < st.2.length + t.length ∧ 0 < st.2.length then
    let words := splitP (· = ' ') st.2
    let k := overlap / 5
    let overlapWords := if k = 0 then words else words.drop (words.length - k)
    (st.1 ++ [jsTrim st.2], List.intercalate [' '] overlapWords ++ ' ' :: t)
  else (st.1, st.2 ++ ' ' :: t)

/-- `splitTextIntoChunks` (source part_004, lines 493-520): split into
sentences, accumulate into a buffer flushed when the next sentence would
push it past `chunkSize`, seed the next buffer with the trailing
`overlap / 5` words (JS `words.slice(-Math.floor(overlap / 5))`, which is
the whole array when the count is 0), emit the trailing buffer, and drop
chunks of length ≤ 10. -/
def splitTextIntoChunks (text : JStr) (chunkSize overlap : Nat) : List JStr :=
  let r := (sentencesOf text).foldl (chunkStep chunkSize overlap) ([], [])
  let chunks := if 0 < (jsTrim r.2).length then r.1 ++ [jsTrim r.2] else r.1
  chunks.filter (fun c => 10 < c.length)

/-! ## Database model (part_005: tables `documents` and `document_chunks`) -/

/-- A row of `public.documents`; only the columns the edge functions read
(`id`, `uploaded_by`, `processing_status`) are modelled. -/
structure Doc where
  id : String
  uploaded_by : String
  processing_status : String
deriving DecidableEq, Repr

/-- A row of `public.document_chunks`; only the columns the query path
reads are modelled. -/
structure ChunkRow where
  id : String
  document_id : String
  chunk_text : String
  chunk_embedding : List Rat
deriving DecidableEq, Repr

/-- The database state seen by the query pipeline. -/
structure DB where
  documents : List Doc
  document_chunks : List ChunkRow
deriving Repr

/-- A retrieved chunk: row of the `match_documents` RPC result, and the
element type of `findRelevantChunks`' result (fallback rows get the fixed
similarity 0.5 = 1/2). -/
structure RChunk where
  id : String
  document_id : String
  chunk_text : String
  similarity : Rat
deriving DecidableEq, Repr

/-- The SQL function `match_documents` (part_005, lines 101-123): all
chunks whose similarity `1 - (embedding <=> query)` exceeds the threshold,
ordered by ascending distance, limited to `match_count`.  The storage
engine's native vector-distance operator `<=>` is the oracle `dist`. -/
def match_documents (dist : List Rat → List Rat → Rat) (db : DB)
    (query_embedding : List Rat) (match_threshold : Rat) (match_count : Nat) :
    List RChunk :=
  let eligible := db.document_chunks.filter
    (fun c => match_threshold < 1 - dist c.chunk_embedding query_embedding)
  let sorted := eligible.mergeSort
    (fun a b => dist a.chunk_embedding query_embedding ≤ dist b.chunk_embedding query_embedding)
  (sorted.take match_count).map
    (fun c => ⟨c.id, c.document_id, c.chunk_text, 1 - dist c.chunk_embedding query_embedding⟩)

/-- The user's completed documents: the query
`.from('documents').select('id').eq('uploaded_by', userId).eq('processing_status', 'completed')`
(part_004, lines 149-153). -/
def userCompletedDocs (db : DB) (userId : String) : List Doc :=
  db.documents.filter
    (fun d => d.uploaded_by == userId && d.processing_status == "completed")

/-- `fallbackTextSearch` (part_004, lines 199-214): up to 5 chunks whose
`document_id` is in `documentIds`, each given the default similarity 0.5. -/
def fallbackTextSearch (db : DB) (documentIds : List String) : List RChunk :=
  ((db.document_chunks.filter (fun c => documentIds.contains c.document_id)).take 5).map
    (fun c => ⟨c.id, c.document_id, c.chunk_text, (1 : Rat) / 2⟩)

/-- `findRelevantChunks` (part_004, lines 147-191).  `searchFails` models
the vector RPC returning `searchError`; on failure or an empty RPC result
the function falls back to `fallbackTextSearch`, otherwise it keeps only
the rows whose `document_id` belongs to the user's completed documents. -/
def findRelevantChunks (dist : List Rat → List Rat → Rat) (db : DB)
    (searchFails : Bool) (queryEmbedding : List Rat) (userId : String) :
    List RChunk :=
  let userDocuments := userCompletedDocs db userId
  if userDocuments.isEmpty then []
  else
    let documentIds := userDocuments.map (·.id)
    if searchFails then fallbackTextSearch db documentIds
    else
      let chunks := match_documents dist db queryEmbedding (1 / 10) 5
      if chunks.isEmpty then fallbackTextSearch db documentIds
      else chunks.filter (fun c => documentIds.contains c.document_id)

/-! ## Query-chat handler (part_004, lines 15-102) -/

/-- Steps of the query handler that follow the input-validation check,
recorded as a trace. -/
inductive QEffect where
  | authCheck
  | embedQuery
  | retrieve
  | synthesize
deriving DecidableEq, Repr

/-- JS falsiness of an optional string field of the request body:
`!x` is true when the field is absent or the empty string. -/
def jsFalsy : Option String → Bool
  | none => true
  | some s => s == ""

/-- Body of the HTTP response of the query handler. -/
inductive QBody where
  | errorB (msg : String)
  | answerB (answer : String) (sourceChunks : List (String × Rat))
deriving DecidableEq, Repr

/-- An HTTP response of the query handler. -/
structure QResponse where
  status : Nat
  body : QBody
deriving DecidableEq, Repr

/-- The parsed request body and headers of a query-chat request. -/
structure QReq where
  query : Option String
  userId : Option String
  authHeader : Option String

/-- Environment of one query-chat invocation: the collaborators the
handler calls (auth lookup, query-embedding endpoint, vector RPC
availability, database, chat model). -/
structure QEnv where
  authUser : Option String
  embed : String → List Rat
  dist : List Rat → List Rat → Rat
  searchFails : Bool
  db : DB
  synth : String → List RChunk → String

/-- The fixed answer returned when no relevant chunks are found
(part_004, line 60). -/
def noRelevantInfoMsg : String :=
  "I couldn\x27t find any relevant information in your documents to answer this question. Please make sure you have uploaded documents and they have been processed."

/-- The query-chat request handler (part_004, lines 15-102), after JSON
parsing, with its trace of performed steps.  Follows the source order:
missing-field check, auth header check, `auth.getUser`, query embedding,
retrieval, empty-result short-circuit, synthesis. -/
def queryChatHandler (env : QEnv) (req : QReq) : QResponse × List QEffect :=
  if jsFalsy req.query || jsFalsy req.userId then
    (⟨400, .errorB "Missing query or userId"⟩, [])
  else
    match req.authHeader with
    | none => (⟨401, .errorB "Missing authorization"⟩, [])
    | some _ =>
      match env.authUser with
      | none => (⟨401, .errorB "Unauthorized"⟩, [.authCheck])
      | some uid =>
        if uid ≠ req.userId.getD "" then (⟨401, .errorB "Unauthorized"⟩, [.authCheck])
        else
          let q := req.query.getD ""
          let queryEmbedding := env.embed q
          let relevantChunks := findRelevantChunks env.dist env.db env.searchFails queryEmbedding uid
          if relevantChunks.isEmpty then
            (⟨200, .answerB noRelevantInfoMsg []⟩, [.authCheck, .embedQuery, .retrieve])
          else
            (⟨200, .answerB (env.synth q relevantChunks)
                (relevantChunks.map (fun c => (c.id, c.similarity)))⟩,
             [.authCheck, .embedQuery, .retrieve, .synthesize])

/-! ## Answer synthesizer retry loop (part_004, lines 222-295) -/

/-- Outcome of one chat-completion fetch: success, HTTP 429, or anything
that is thrown inside the `try` (a non-ok HTTP response or a network
error). -/
inductive ChatOutcome where
  | ok (content : String)
  | rateLimited
  | err (msg : String)
deriving DecidableEq, Repr

/-- The `while (attempt < maxAttempts)` loop of `generateChatResponse`
(part_004, lines 242-295).  `responses n` is the outcome of the fetch made
with `attempt = n`; the fuel is `maxAttempts - attempt`, so the `fuel = 0`
base case is the loop exit that throws the final generic error.  Returns
(result, list of waits in ms, number of fetch attempts made). -/
def generateChatResponseAux (responses : Nat → ChatOutcome) :
    Nat → Nat → Except String String × List Nat × Nat
  | _, 0 => (.error "Failed to generate response after maximum attempts", [], 0)
  | attempt, fuel + 1 =>
    match responses attempt with
    | .ok c => (.ok c, [], 1)
    | .rateLimited =>
      let delay := min (1000 * 2 ^ attempt) 60000
      let r := generateChatResponseAux responses (attempt + 1) fuel
      (r.1, delay :: r.2.1, r.2.2 + 1)
    | .err m =>
      if fuel = 0 then (.error m, [], 1)
      else
        let r := generateChatResponseAux responses (attempt + 1) fuel
        (r.1, (1000 * (attempt + 1)) :: r.2.1, r.2.2 + 1)

/-- `generateChatResponse`'s retry behaviour: start at `attempt = 0` with
`maxAttempts = 3` (part_004, lines 242-243). -/
def generateChatResponse (responses : Nat → ChatOutcome) :
    Except String String × List Nat × Nat :=
  generateChatResponseAux responses 0 3

/-! ## Batch embedding (part_004, lines 527-588) -/

/-- Outcome of one embedding fetch for a batch: success (the endpoint
returns one vector per input, aligned by index, produced by the oracle
`embed`), HTTP 429, or another non-ok HTTP status. -/
inductive EmbedOutcome where
  | ok
  | rateLimited
  | err (status : Nat) (body : String)
deriving DecidableEq, Repr

/-- The batching loop of `generateEmbeddingsForChunks` (part_004, lines
535-585).  `i` is the loop index, `callNo` counts fetches (the oracle
`responses` is indexed by it), and `fuel` bounds the number of loop
iterations: `none` means the real loop would still be running after
`fuel` iterations.  On a 429 the source does `i -= batchSize; continue`,
which the `for` update cancels, so the same batch is retried.  Returns
(result, batches sent, waits in ms). -/
def genEmbedAux (embed : String → List Rat) (responses : Nat → EmbedOutcome)
    (chunks : List String) :
    Nat → Nat → Nat → Option (Except String (List (List Rat)) × List (List String) × List Nat)
  | _, _, 0 => none
  | i, callNo, fuel + 1 =>
    if chunks.length ≤ i then some (.ok [], [], [])
    else
      let batch := (chunks.drop i).take 10
      match responses callNo with
      | .rateLimited =>
        match genEmbedAux embed responses chunks i (callNo + 1) fuel with
        | none => none
        | some (r, bs, ds) => some (r, batch :: bs, 2000 :: ds)
      | .err status body =>
        some (.error ("Groq API error: " ++ toString status ++ " " ++ body), [batch], [])
      | .ok =>
        let vecs := batch.map embed
        let throttle : List Nat := if i + 10 < chunks.length then [500] else []
        match genEmbedAux embed responses chunks (i + 10) (callNo + 1) fuel with
        | none => none
        | some (.ok rest, bs, ds) => some (.ok (vecs ++ rest), batch :: bs, throttle ++ ds)
        | some (.error e, bs, ds) => some (.error e, batch :: bs, throttle ++ ds)

/-- `generateEmbeddingsForChunks` (part_004, lines 527-588), with fuel. -/
def generateEmbeddingsForChunks (embed : String → List Rat)
    (responses : Nat → EmbedOutcome) (chunks : List String) (fuel : Nat) :
    Option (Except String (List (List Rat)) × List (List String) × List Nat) :=
  genEmbedAux embed responses chunks 0 0 fuel

/-! ## Ingestion handler (part_004, lines 311-484) -/

/-- Database/log side effects of the extract-embeddings handler. -/
inductive IEffect where
  | statusWrite (docId : String) (status : String)
  | insertChunks (docId : String)
  | logStatusWriteFailed
deriving DecidableEq, Repr

/-- Environment of one extract-embeddings invocation: request fields and
the outcomes of the collaborator calls the handler makes. -/
structure IngestEnv where
  documentId : Option String
  fileName : String
  download : Except String String
  embedOutcome : Except String (List (List Rat))
  insertOutcome : Except String Unit
  statusErrorWriteFails : Bool

/-- `extractTextFromFile` (part_004, lines 462-484): `.txt` is decoded as
text, `.pdf`/`.docx` return fixed placeholder text, anything else throws
`Unsupported file type`. -/
def extractTextFromFile (fileContent : String) (fileName : String) :
    Except String String :=
  let extension := (fileName.toLower.splitOn ".").getLast?.getD ""
  if extension == "txt" then .ok fileContent
  else if extension == "pdf" then
    .ok "PDF content would be extracted here using a PDF parsing library."
  else if extension == "docx" then
    .ok "DOCX content would be extracted here using a DOCX parsing library."
  else .error ("Unsupported file type: " ++ extension)

/-- The `try` block of the extract-embeddings handler (part_004, lines
349-401): download, extract, reject empty text, chunk, reject zero chunks,
embed, insert.  Any `.error` is what the `catch` block receives. -/
def ingestPipeline (env : IngestEnv) : Except String (List JStr × List (List Rat)) := do
  let fileContent ← match env.download with
    | .error m => .error ("Failed to download file: " ++ m)
    | .ok c => .ok c
  let textContent ← extractTextFromFile fileContent env.fileName
  if (textContent.trim.length = 0) then .error "No text content extracted from file"
  else do
    let chunks := splitTextIntoChunks textContent.toList 500 50
    if chunks.length = 0 then .error "No chunks created from text content"
    else do
      let embeddings ← env.embedOutcome
      match env.insertOutcome with
      | .error m => .error ("Failed to store chunks: " ++ m)
      | .ok _ => .ok (chunks, embeddings)

/-- Response of the extract-embeddings handler. -/
structure IResponse where
  status : Nat
  success : Bool
  error : Option String
deriving DecidableEq, Repr

/-- The extract-embeddings handler (part_004, lines 311-454): run the
pipeline; on success write status `completed`; on failure the `catch`
block attempts to write status `error` for the request's `documentId` (a
failure of that write is only logged) and then reports the original error
message with a 500 response. -/
def ingestHandler (env : IngestEnv) : IResponse × List IEffect :=
  let pre : List IEffect := match env.documentId with
    | some d => [.statusWrite d "processing"]
    | none => []
  match ingestPipeline env with
  | .ok _ =>
    (⟨200, true, none⟩,
     pre ++ (match env.documentId with
       | some d => [.insertChunks d, .statusWrite d "completed"]
       | none => []))
  | .error msg =>
    let catchEffects : List IEffect := match env.documentId with
      | some d =>
        if env.statusErrorWriteFails then
          [.statusWrite d "error", .logStatusWriteFailed]
        else [.statusWrite d "error"]
      | none => []
    (⟨500, false, some msg⟩, pre ++ catchEffects)

/-! ## Helper lemmas about `jsTrim` and list splitting -/

/-- The head of a non-empty `dropWhile` result fails the predicate. -/
theorem dropWhile_head_false {p : Char → Bool} :
    ∀ {l c t}, List.dropWhile p l = c :: t → p c = false := by
  intro l
  induction l with
  | nil => intro c t h; simp [List.dropWhile] at h
  | cons a l ih =>
    intro c t h
    rw [List.dropWhile_cons] at h
    by_cases ha : p a = true
    · exact ih (by simpa [ha] using h)
    · simp [ha] at h
      simp [← h.1, Bool.eq_false_iff.mpr ha]

/-- `dropWhile` leaves a list whose head fails the predicate unchanged. -/
theorem dropWhile_of_head_false {p : Char → Bool} {c : Char} {t : List Char}
    (h : p c = false) : List.dropWhile p (c :: t) = c :: t := by
  simp [List.dropWhile_cons, h]

/-- `jsTrim` does not lengthen a string. -/
theorem jsTrim_length_le (s : JStr) : (jsTrim s).length ≤ s.length := by
  unfold jsTrim
  calc ((s.dropWhile Char.isWhitespace).reverse.dropWhile Char.isWhitespace).reverse.length
      = ((s.dropWhile Char.isWhitespace).reverse.dropWhile Char.isWhitespace).length := by
        rw [List.length_reverse]
    _ ≤ (s.dropWhile Char.isWhitespace).reverse.length := by
        exact List.Sublist.length_le
          (@List.dropWhile_sublist Char (s.dropWhile Char.isWhitespace).reverse
            Char.isWhitespace)
    _ = (s.dropWhile Char.isWhitespace).length := by rw [List.length_reverse]
    _ ≤ s.length := List.Sublist.length_le (List.dropWhile_sublist _)

/-- Leading whitespace is removed by `jsTrim`. -/
theorem jsTrim_cons_space (s : JStr) : jsTrim (' ' :: s) = jsTrim s := by
  unfold jsTrim
  have : (' ' :: s).dropWhile Char.isWhitespace = s.dropWhile Char.isWhitespace := by
    simp [List.dropWhile_cons]
  rw [this]

/-- `jsTrim` is idempotent. -/
theorem jsTrim_idem (l : JStr) : jsTrim (jsTrim l) = jsTrim l := by
  set w := Char.isWhitespace with hw
  set A := l.dropWhile w with hA
  set B := A.reverse.dropWhile w with hB
  have hTrim : jsTrim l = B.reverse := rfl
  rw [hTrim]
  by_cases hBnil : B = []
  · simp [jsTrim, hBnil]
  · obtain ⟨b, t, hbt⟩ := List.exists_cons_of_ne_nil hBnil
    -- head of B fails w
    have hb : w b = false := dropWhile_head_false (hbt ▸ hB.symm)
    -- A is non-empty (otherwise B would be empty)
    have hAnil : A ≠ [] := by
      intro h
      rw [h] at hB
      simp at hB
      exact hBnil hB
    obtain ⟨a, A', haA⟩ := List.exists_cons_of_ne_nil hAnil
    have ha : w a = false := dropWhile_head_false (haA ▸ hA.symm)
    -- B is a suffix of A.reverse, so getLast? B = getLast? A.reverse = head? A
    have hsuf : B <:+ A.reverse := hB ▸ List.dropWhile_suffix w
    obtain ⟨u, hu⟩ := hsuf
    have hlast : B.getLast? = some a := by
      have h1 : (u ++ B).getLast? = B.getLast? :=
        List.getLast?_append_of_ne_nil u hBnil
      have h2 : A.reverse.getLast? = A.head? := List.getLast?_reverse A
      rw [hu] at h1
      rw [h1, haA] at h2
      simpa using h2
    -- so the head of B.reverse is a, which fails w
    have hrevhead : B.reverse.head? = some a := by
      rw [List.head?_reverse]; exact hlast
    have hrevne : B.reverse ≠ [] := by
      intro h
      rw [h] at hrevhead; simp at hrevhead
    obtain ⟨c, t', hrev⟩ := List.exists_cons_of_ne_nil hrevne
    have hc : c = a := by rw [hrev] at hrevhead; simpa using hrevhead
    -- dropWhile on B.reverse is the identity
    have step1 : B.reverse.dropWhile w = B.reverse := by
      rw [hrev]; exact dropWhile_of_head_false (hc ▸ ha)
    -- dropWhile on B itself is the identity
    have step2 : B.dropWhile w = B := by
      rw [hbt]; exact dropWhile_of_head_false hb
    show ((B.reverse.dropWhile w).reverse.dropWhile w).reverse = B.reverse
    rw [step1, List.reverse_reverse, step2]

/-- A string all of whose characters are whitespace trims to empty. -/
theorem jsTrim_eq_nil_of_all_ws {s : JStr} (h : ∀ c ∈ s, c.isWhitespace) :
    jsTrim s = [] := by
  unfold jsTrim
  have h1 : s.dropWhile Char.isWhitespace = [] :=
    List.dropWhile_eq_nil_iff.mpr h
  rw [h1]
  simp

/-- Every character of a segment produced by `splitP` is a character of
the input. -/
theorem splitP_mem_subset {p : Char → Bool} :
    ∀ {l : JStr} {s : JStr}, s ∈ splitP p l → ∀ c ∈ s, c ∈ l := by
  intro l
  induction l with
  | nil =>
    intro s hs c hc
    simp [splitP] at hs
    rw [hs] at hc
    simp at hc
  | cons a l ih =>
    intro s hs c hc
    rw [splitP] at hs
    by_cases ha : p a = true
    · rw [if_pos ha] at hs
      rw [List.mem_cons] at hs
      rcases hs with hs | hs
      · rw [hs] at hc; simp at hc
      · exact List.mem_cons_of_mem a (ih hs c hc)
    · rw [if_neg ha] at hs
      rcases hsp : splitP p l with _ | ⟨s', ss⟩
      · rw [hsp] at hs
        simp at hs
        rw [hs] at hc
        simp at hc
        rw [hc]; exact List.mem_cons_self a l
      · rw [hsp] at hs
        rw [List.mem_cons] at hs
        rcases hs with hs | hs
        · rw [hs, List.mem_cons] at hc
          rcases hc with hc | hc
          · rw [hc]; exact List.mem_cons_self a l
          · exact List.mem_cons_of_mem a (ih (hsp ▸ List.mem_cons_self s' ss) c hc)
        · exact List.mem_cons_of_mem a (ih (hsp ▸ List.mem_cons_of_mem s' hs) c hc)

/-- Every chunk accumulated by the sentence loop is the `jsTrim` of some
string (the source only ever pushes `currentChunk.trim()`). -/
theorem chunkFold_trim_images (cs ov : Nat) :
    ∀ (ss : List JStr) (st : List JStr × JStr),
      (∀ c ∈ st.1, ∃ x, c = jsTrim x) →
      ∀ c ∈ (ss.foldl (chunkStep cs ov) st).1, ∃ x, c = jsTrim x := by
  intro ss
  induction ss with
  | nil => intro st h c hc; exact h c hc
  | cons s ss ih =>
    intro st h c hc
    rw [List.foldl_cons] at hc
    refine ih (chunkStep cs ov st s) ?_ c hc
    intro d hd
    unfold chunkStep at hd
    by_cases ht : (jsTrim s).length = 0
    · rw [if_pos ht] at hd; exact h d hd
    · rw [if_neg ht] at hd
      by_cases hcond : cs < st.2.length + (jsTrim s).length ∧ 0 < st.2.length
      · rw [if_pos hcond] at hd
        simp only [List.mem_append, List.mem_singleton] at hd
        rcases hd with hd | hd
        · exact h d hd
        · exact ⟨st.2, hd⟩
      · rw [if_neg hcond] at hd; exact h d hd

/-- C9: every returned chunk is non-empty with trimmed length strictly
above the 10-character floor, and empty or whitespace-only input yields
the empty chunk list. -/
theorem c9_chunk_floor_and_empty_input (text : JStr) (cs ov : Nat) :
    (∀ c ∈ splitTextIntoChunks text cs ov, 10 < (jsTrim c).length ∧ c ≠ []) ∧
    ((∀ ch ∈ text, ch.isWhitespace) → splitTextIntoChunks text cs ov = []) := by
  constructor
  · intro c hc
    unfold splitTextIntoChunks at hc
    rw [List.mem_filter] at hc
    obtain ⟨hmem, hlen⟩ := hc
    have hlen' : 10 < c.length := by simpa using hlen
    have himg : ∃ x, c = jsTrim x := by
      set r := (sentencesOf text).foldl (chunkStep cs ov) ([], []) with hr
      have base : ∀ d ∈ (([], []) : List JStr × JStr).1, ∃ x, d = jsTrim x := by
        intro d hd; simp at hd
      have hfold := chunkFold_trim_images cs ov (sentencesOf text) ([], []) base
      by_cases htrail : 0 < (jsTrim r.2).length
      · rw [if_pos htrail] at hmem
        rw [List.mem_append] at hmem
        rcases hmem with hmem | hmem
        · exact hfold c hmem
        · rw [List.mem_singleton] at hmem
          exact ⟨r.2, hmem⟩
      · rw [if_neg htrail] at hmem
        exact hfold c hmem
    obtain ⟨x, hx⟩ := himg
    have : jsTrim c = c := by rw [hx, jsTrim_idem]
    refine ⟨by rw [this]; exact hlen', ?_⟩
    exact List.ne_nil_of_length_pos (Nat.lt_trans (by norm_num) hlen')
  · intro hws
    have hsent : sentencesOf text = [] := by
      unfold sentencesOf
      rw [List.filter_eq_nil_iff]
      intro s hs
      have : jsTrim s = [] := by
        refine jsTrim_eq_nil_of_all_ws ?_
        intro c hc
        exact hws c (splitP_mem_subset hs c hc)
      simp [this]
    unfold splitTextIntoChunks
    rw [hsent]
    simp [jsTrim]

/-- The size classification a produced chunk can satisfy: within one
character of `chunkSize` (the separator added by the last append), or a
single (possibly oversized) sentence, or an overlap-seeded chunk (at most
`overlap / 5` carried words followed by one sentence) that was closed
before any further sentence was appended. -/
def chunkWithinBound (text : JStr) (cs ov : Nat) (c : JStr) : Prop :=
  c.length ≤ cs + 1
  ∨ (∃ s ∈ sentencesOf text, c = jsTrim s)
  ∨ (∃ s ∈ sentencesOf text, ∃ w : List JStr,
      (0 < ov / 5 → w.length ≤ ov / 5) ∧
      c = jsTrim (List.intercalate [' '] w ++ ' ' :: jsTrim s))

/-- The shapes the running buffer of the sentence loop can have. -/
def chunkBufOK (text : JStr) (cs ov : Nat) (b : JStr) : Prop :=
  b = [] ∨ b.length ≤ cs + 1
  ∨ (∃ s ∈ sentencesOf text, b = ' ' :: jsTrim s)
  ∨ (∃ s ∈ sentencesOf text, ∃ w : List JStr,
      (0 < ov / 5 → w.length ≤ ov / 5) ∧
      b = List.intercalate [' '] w ++ ' ' :: jsTrim s)

/-- Trimming a buffer of any legal shape yields a chunk of one of the
three bounded shapes. -/
theorem chunkBufOK_push {text : JStr} {cs ov : Nat} {b : JStr}
    (h : chunkBufOK text cs ov b) : chunkWithinBound text cs ov (jsTrim b) := by
  rcases h with h | h | ⟨s, hs, h⟩ | ⟨s, hs, w, hw, h⟩
  · left
    rw [h]
    simp [jsTrim]
  · left
    exact Nat.le_trans (jsTrim_length_le b) h
  · right; left
    refine ⟨s, hs, ?_⟩
    rw [h, jsTrim_cons_space, jsTrim_idem]
  · right; right
    exact ⟨s, hs, w, hw, by rw [h]⟩

/-- One loop iteration preserves the chunk and buffer invariants. -/
theorem chunkStep_inv {text : JStr} {cs ov : Nat} {st : List JStr × JStr}
    {s : JStr} (hs : s ∈ sentencesOf text)
    (hchunks : ∀ c ∈ st.1, chunkWithinBound text cs ov c)
    (hbuf : chunkBufOK text cs ov st.2) :
    (∀ c ∈ (chunkStep cs ov st s).1, chunkWithinBound text cs ov c) ∧
    chunkBufOK text cs ov (chunkStep cs ov st s).2 := by
  unfold chunkStep
  by_cases ht : (jsTrim s).length = 0
  · rw [if_pos ht]
    exact ⟨hchunks, hbuf⟩
  · rw [if_neg ht]
    by_cases hcond : cs < st.2.length + (jsTrim s).length ∧ 0 < st.2.length
    · rw [if_pos hcond]
      constructor
      · intro c hc
        simp only [List.mem_append, List.mem_singleton] at hc
        rcases hc with hc | hc
        · exact hchunks c hc
        · rw [hc]
          exact chunkBufOK_push hbuf
      · -- the freshly seeded buffer
        right; right; right
        dsimp only
        refine ⟨s, hs, _, ?_, rfl⟩
        intro hk
        split
        · omega
        · rw [List.length_drop]
          omega
    · rw [if_neg hcond]
      refine ⟨hchunks, ?_⟩
      by_cases hnil : st.2 = []
      · right; right; left
        refine ⟨s, hs, ?_⟩
        rw [hnil]
        rfl
      · have hpos : 0 < st.2.length := List.length_pos.mpr hnil
        have hle : st.2.length + (jsTrim s).length ≤ cs := by
          rcases Nat.lt_or_ge cs (st.2.length + (jsTrim s).length) with h | h
          · exact absurd ⟨h, hpos⟩ hcond
          · exact h
        right; left
        rw [List.length_append, List.length_cons]
        omega

/-- The whole sentence loop preserves the invariants. -/
theorem chunkFold_inv {text : JStr} {cs ov : Nat} :
    ∀ (ss : List JStr) (st : List JStr × JStr),
      (∀ s ∈ ss, s ∈ sentencesOf text) →
      (∀ c ∈ st.1, chunkWithinBound text cs ov c) →
      chunkBufOK text cs ov st.2 →
      (∀ c ∈ (ss.foldl (chunkStep cs ov) st).1, chunkWithinBound text cs ov c) ∧
      chunkBufOK text cs ov (ss.foldl (chunkStep cs ov) st).2 := by
  intro ss
  induction ss with
  | nil => intro st _ h1 h2; exact ⟨h1, h2⟩
  | cons s ss ih =>
    intro st hmem h1 h2
    rw [List.foldl_cons]
    have hstep := chunkStep_inv (hmem s (List.mem_cons_self s ss)) h1 h2
    exact ih (chunkStep cs ov st s) (fun x hx => hmem x (List.mem_cons_of_mem s hx))
      hstep.1 hstep.2

/-- C8 (amended): every chunk is within one separator character of
`targetSize`, or is a single (possibly oversized) sentence, or is an
overlap-seeded chunk (at most `overlap / 5` carried words plus one
sentence) that was flushed before any further append — the latter may
exceed `targetSize` by more than one sentence's length.  Moreover the
buffer is closed out exactly as soon as appending the next sentence would
exceed `targetSize` while the buffer is non-empty. -/
theorem c8_chunk_size_bound (text : JStr) (cs ov : Nat) :
    (∀ c ∈ splitTextIntoChunks text cs ov, chunkWithinBound text cs ov c) ∧
    (∀ (st : List JStr × JStr) (s : JStr), jsTrim s ≠ [] →
      cs < st.2.length + (jsTrim s).length → 0 < st.2.length →
      (chunkStep cs ov st s).1 = st.1 ++ [jsTrim st.2]) := by
  constructor
  · intro c hc
    unfold splitTextIntoChunks at hc
    rw [List.mem_filter] at hc
    obtain ⟨hmem, _⟩ := hc
    set r := (sentencesOf text).foldl (chunkStep cs ov) ([], []) with hr
    have hfold := @chunkFold_inv text cs ov
      (sentencesOf text) ([], []) (fun _ hx => hx)
      (by intro d hd; simp at hd) (Or.inl rfl)
    by_cases htrail : 0 < (jsTrim r.2).length
    · rw [if_pos htrail] at hmem
      rw [List.mem_append] at hmem
      rcases hmem with hmem | hmem
      · exact hfold.1 c hmem
      · rw [List.mem_singleton] at hmem
        rw [hmem]
        exact chunkBufOK_push hfold.2
    · rw [if_neg htrail] at hmem
      exact hfold.1 c hmem
  · intro st s hts hover hne
    unfold chunkStep
    rw [if_neg (by simpa [List.length_eq_zero] using hts), if_pos ⟨hover, hne⟩]

/-- C8 as literally stated is false: with `targetSize = 5, overlap = 50`
and four 4-character sentences, the overlap seeding produces the chunk
`"aaaa bbbb cccc dddd"` (19 characters), which contains no sentence longer
than `targetSize` yet exceeds `targetSize` by more than any sentence's
length. -/
theorem c8_counterexample :
    ¬ (∀ c ∈ splitTextIntoChunks ("aaaa.bbbb.cccc.dddd.".toList) 5 50,
        (∃ s ∈ sentencesOf ("aaaa.bbbb.cccc.dddd.".toList), 5 < (jsTrim s).length)
        ∨ (∃ s ∈ sentencesOf ("aaaa.bbbb.cccc.dddd.".toList),
            c.length ≤ 5 + (jsTrim s).length)) := by
  decide

/-- An id drawn from the completed-documents query names a document of
the database that the user owns and that is completed. -/
theorem mem_userCompletedDocs_ids {db : DB} {userId x : String}
    (hx : x ∈ (userCompletedDocs db userId).map (·.id)) :
    ∃ d ∈ db.documents,
      d.id = x ∧ d.uploaded_by = userId ∧ d.processing_status = "completed" := by
  rw [List.mem_map] at hx
  obtain ⟨d, hd, hdx⟩ := hx
  rw [userCompletedDocs, List.mem_filter] at hd
  obtain ⟨hd1, hd2⟩ := hd
  simp only [Bool.and_eq_true, beq_iff_eq] at hd2
  exact ⟨d, hd1, hdx, hd2.1, hd2.2⟩

/-- Every fallback result row comes from `document_chunks` and is scoped
to the given document ids. -/
theorem fallbackTextSearch_scoped {db : DB} {ids : List String} {c : RChunk}
    (hc : c ∈ fallbackTextSearch db ids) :
    ∃ row ∈ db.document_chunks,
      row.id = c.id ∧ row.document_id = c.document_id ∧
      c.document_id ∈ ids ∧ c.similarity = (1 : Rat) / 2 := by
  rw [fallbackTextSearch, List.mem_map] at hc
  obtain ⟨row, hrow, hmk⟩ := hc
  have hrow' := List.mem_of_mem_take hrow
  rw [List.mem_filter] at hrow'
  obtain ⟨hmem, hcont⟩ := hrow'
  have hidm : row.document_id ∈ ids := by
    have := List.elem_iff.mp hcont
    exact this
  refine ⟨row, hmem, ?_, ?_, ?_, ?_⟩ <;> rw [← hmk]
  exact hidm

/-- Every `match_documents` row comes from `document_chunks`. -/
theorem match_documents_scoped {dist : List Rat → List Rat → Rat} {db : DB}
    {qe : List Rat} {th : Rat} {cnt : Nat} {c : RChunk}
    (hc : c ∈ match_documents dist db qe th cnt) :
    ∃ row ∈ db.document_chunks, row.id = c.id ∧ row.document_id = c.document_id := by
  rw [match_documents, List.mem_map] at hc
  obtain ⟨row, hrow, hmk⟩ := hc
  have hrow' := List.mem_of_mem_take hrow
  rw [List.mem_mergeSort, List.mem_filter] at hrow'
  exact ⟨row, hrow'.1, by rw [← hmk], by rw [← hmk]⟩

/-- C1: every chunk returned by the query pipeline, through either the
similarity path or the textual fallback path, references a stored chunk
whose parent document is owned by the querying user and has status
`completed`. -/
theorem c1_retrieval_scoping (dist : List Rat → List Rat → Rat) (db : DB)
    (searchFails : Bool) (qe : List Rat) (userId : String) :
    ∀ c ∈ findRelevantChunks dist db searchFails qe userId,
      (∃ row ∈ db.document_chunks, row.id = c.id ∧ row.document_id = c.document_id) ∧
      (∃ d ∈ db.documents,
        d.id = c.document_id ∧ d.uploaded_by = userId ∧
        d.processing_status = "completed") := by
  intro c hc
  unfold findRelevantChunks at hc
  by_cases hempty : (userCompletedDocs db userId).isEmpty
  · rw [if_pos hempty] at hc
    simp at hc
  · rw [if_neg hempty] at hc
    by_cases hsf : searchFails
    · rw [if_pos hsf] at hc
      obtain ⟨row, hrow, h1, h2, h3, _⟩ := fallbackTextSearch_scoped hc
      exact ⟨⟨row, hrow, h1, h2⟩, mem_userCompletedDocs_ids h3⟩
    · rw [if_neg hsf] at hc
      by_cases hmt : (match_documents dist db qe (1 / 10) 5).isEmpty
      · rw [if_pos hmt] at hc
        obtain ⟨row, hrow, h1, h2, h3, _⟩ := fallbackTextSearch_scoped hc
        exact ⟨⟨row, hrow, h1, h2⟩, mem_userCompletedDocs_ids h3⟩
      · rw [if_neg hmt] at hc
        rw [List.mem_filter] at hc
        obtain ⟨hmem, hcont⟩ := hc
        refine ⟨match_documents_scoped hmem, ?_⟩
        exact mem_userCompletedDocs_ids (List.elem_iff.mp hcont)

/-- A database with one completed document owned by `u1` and no stored
chunks at all. -/
def dbNoChunks : DB := ⟨[⟨"d1", "u1", "completed"⟩], []⟩

/-- C2 as stated is false: the user owns a completed document, the
similarity query returns zero rows, and yet `findRelevantChunks` returns
the empty list, because the completed document has no stored chunks for
the fallback to return. -/
theorem c2_counterexample :
    userCompletedDocs dbNoChunks "u1" ≠ [] ∧
    findRelevantChunks (fun _ _ => 0) dbNoChunks false [] "u1" = [] := by
  refine ⟨by decide, ?_⟩
  unfold findRelevantChunks
  simp [match_documents, fallbackTextSearch, dbNoChunks]

/-- C2 (amended): when the similarity query fails or yields zero rows,
`findRelevantChunks` answers from the fallback — up to 5 chunks of the
user's completed documents, each carrying the placeholder similarity 0.5 —
and the result is non-empty provided at least one stored chunk belongs to
one of the user's completed documents. -/
theorem c2_fallback_guarantee (dist : List Rat → List Rat → Rat) (db : DB)
    (searchFails : Bool) (qe : List Rat) (userId : String)
    (hdocs : ¬ (userCompletedDocs db userId).isEmpty)
    (hfb : searchFails = true ∨ (match_documents dist db qe (1 / 10) 5).isEmpty)
    (hchunk : ∃ ch ∈ db.document_chunks,
      ch.document_id ∈ (userCompletedDocs db userId).map (·.id)) :
    findRelevantChunks dist db searchFails qe userId ≠ [] ∧
    (findRelevantChunks dist db searchFails qe userId).length ≤ 5 ∧
    ∀ c ∈ findRelevantChunks dist db searchFails qe userId,
      c.similarity = (1 : Rat) / 2 := by
  have hred : findRelevantChunks dist db searchFails qe userId =
      fallbackTextSearch db ((userCompletedDocs db userId).map (·.id)) := by
    unfold findRelevantChunks
    rw [if_neg hdocs]
    by_cases hsf : searchFails
    · rw [if_pos hsf]
    · rw [if_neg hsf]
      rcases hfb with h | h
      · exact absurd h hsf
      · rw [if_pos h]
  rw [hred]
  refine ⟨?_, ?_, ?_⟩
  · obtain ⟨ch, hch, hid⟩ := hchunk
    intro hnil
    rw [fallbackTextSearch] at hnil
    rw [List.map_eq_nil_iff, List.take_eq_nil_iff] at hnil
    rcases hnil with h | h
    · exact absurd h (by norm_num)
    · rw [List.filter_eq_nil_iff] at h
      exact h ch hch (List.elem_iff.mpr hid)
  · rw [fallbackTextSearch, List.length_map, List.length_take]
    exact min_le_left _ _
  · intro c hc
    obtain ⟨_, _, _, _, _, hsim⟩ := fallbackTextSearch_scoped hc
    exact hsim

/-- If the user has no completed documents, retrieval returns the empty
list (part_004, lines 159-161). -/
theorem findRelevantChunks_no_docs {dist : List Rat → List Rat → Rat}
    {db : DB} {searchFails : Bool} {qe : List Rat} {userId : String}
    (h : userCompletedDocs db userId = []) :
    findRelevantChunks dist db searchFails qe userId = [] := by
  simp [findRelevantChunks, h]

/-- C4: a query by an authenticated user with zero completed documents
yields the fixed "no relevant information" answer with an empty citation
list, and the synthesizer is never invoked. -/
theorem c4_empty_context_short_circuit (env : QEnv) (req : QReq)
    (a uid : String)
    (hq : jsFalsy req.query = false) (hu : jsFalsy req.userId = false)
    (hah : req.authHeader = some a) (hauth : env.authUser = some uid)
    (hid : uid = req.userId.getD "")
    (hdocs : userCompletedDocs env.db uid = []) :
    queryChatHandler env req =
      (⟨200, .answerB noRelevantInfoMsg []⟩, [.authCheck, .embedQuery, .retrieve]) ∧
    QEffect.synthesize ∉ (queryChatHandler env req).2 := by
  have hfr : ∀ qe, findRelevantChunks env.dist env.db env.searchFails qe uid = [] :=
    fun _ => findRelevantChunks_no_docs hdocs
  have hmain : queryChatHandler env req =
      (⟨200, .answerB noRelevantInfoMsg []⟩, [.authCheck, .embedQuery, .retrieve]) := by
    unfold queryChatHandler
    rw [hq, hu, hah, hauth]
    simp [← hid, hfr]
  exact ⟨hmain, by rw [hmain]; decide⟩

/-- C10: a request with a missing or empty `query` or `userId` is rejected
with a 400 "Missing query or userId" response before any of the
authorization check, query embedding, retrieval or synthesis happens. -/
theorem c10_missing_fields_reject (env : QEnv) (req : QReq)
    (h : jsFalsy req.query = true ∨ jsFalsy req.userId = true) :
    queryChatHandler env req = (⟨400, .errorB "Missing query or userId"⟩, []) := by
  unfold queryChatHandler
  rcases h with h | h <;> simp [h]

/-- The synthesizer loop makes at most `fuel` fetch attempts. -/
theorem generateChatResponseAux_attempts_le (responses : Nat → ChatOutcome) :
    ∀ (fuel attempt : Nat),
      (generateChatResponseAux responses attempt fuel).2.2 ≤ fuel := by
  intro fuel
  induction fuel with
  | zero => intro attempt; simp [generateChatResponseAux]
  | succ f ih =>
    intro attempt
    unfold generateChatResponseAux
    cases hres : responses attempt with
    | ok c => simp
    | rateLimited =>
      have := ih (attempt + 1)
      simp only []
      omega
    | err m =>
      by_cases hf : f = 0
      · simp [hf]
      · have := ih (attempt + 1)
        simp only [if_neg hf]
        omega

/-- C3: the synthesizer retry loop shares a 3-attempt budget between
rate-limit and generic-error retries; an always-rate-limited call fails
after exactly 3 attempts with exponential 1s/2s/4s backoff, and an
always-erroring call fails after exactly 3 attempts with linear 1s/2s
backoff, rethrowing the original error. -/
theorem c3_retry_budget (responses : Nat → ChatOutcome) :
    (generateChatResponse responses).2.2 ≤ 3 ∧
    ((∀ n, responses n = .rateLimited) →
      generateChatResponse responses =
        (.error "Failed to generate response after maximum attempts",
         [min (1000 * 2 ^ 0) 60000, min (1000 * 2 ^ 1) 60000,
          min (1000 * 2 ^ 2) 60000], 3)) ∧
    (∀ m, (∀ n, responses n = .err m) →
      generateChatResponse responses = (.error m, [1000 * 1, 1000 * 2], 3)) := by
  refine ⟨generateChatResponseAux_attempts_le responses 3 0, ?_, ?_⟩
  · intro h
    norm_num [generateChatResponse, generateChatResponseAux, h]
  · intro m h
    norm_num [generateChatResponse, generateChatResponseAux, h]

/-- When every embedding fetch succeeds, the loop consumes the remaining
chunks in successive batches of at most 10 and maps the oracle over them
in order. -/
theorem genEmbedAux_all_ok (embed : String → List Rat)
    (responses : Nat → EmbedOutcome) (chunks : List String)
    (hok : ∀ n, responses n = EmbedOutcome.ok) :
    ∀ (fuel i callNo : Nat), chunks.length - i < fuel →
      ∃ bs ds, genEmbedAux embed responses chunks i callNo fuel =
        some (.ok ((chunks.drop i).map embed), bs, ds) ∧
        bs.flatten = chunks.drop i ∧ ∀ b ∈ bs, b.length ≤ 10 := by
  intro fuel
  induction fuel with
  | zero => intro i callNo h; omega
  | succ f ih =>
    intro i callNo h
    unfold genEmbedAux
    by_cases hle : chunks.length ≤ i
    · rw [if_pos hle, List.drop_eq_nil_of_le hle]
      exact ⟨[], [], by simp, by simp, by simp⟩
    · rw [if_neg hle, hok callNo]
      obtain ⟨bs, ds, heq, hjoin, hlen⟩ := ih (i + 10) (callNo + 1) (by omega)
      rw [heq]
      have hsplit : chunks.drop i = (chunks.drop i).take 10 ++ chunks.drop (i + 10) := by
        rw [← List.drop_drop]
        exact (List.take_append_drop 10 (chunks.drop i)).symm
      refine ⟨(chunks.drop i).take 10 :: bs,
        (if i + 10 < chunks.length then [500] else []) ++ ds, ?_, ?_, ?_⟩
      · dsimp only
        have hmap : List.map embed (chunks.drop i) =
            List.map embed ((chunks.drop i).take 10) ++
              List.map embed (chunks.drop (i + 10)) := by
          conv_lhs => rw [hsplit]
          rw [List.map_append]
        rw [hmap]
      · rw [List.flatten_cons, hjoin, ← hsplit]
      · intro b hb
        rcases List.mem_cons.mp hb with hb | hb
        · rw [hb, List.length_take]
          exact min_le_left _ _
        · exact hlen b hb

/-- C5: assuming the embedding service returns one aligned vector per
input, `generateEmbeddingsForChunks` on N chunk texts returns exactly N
vectors, in input order, sent in successive batches of at most 10. -/
theorem c5_embedding_order (embed : String → List Rat)
    (responses : Nat → EmbedOutcome) (chunks : List String)
    (hok : ∀ n, responses n = EmbedOutcome.ok) :
    ∃ bs ds,
      generateEmbeddingsForChunks embed responses chunks (chunks.length + 1) =
        some (.ok (chunks.map embed), bs, ds) ∧
      (chunks.map embed).length = chunks.length ∧
      bs.flatten = chunks ∧ ∀ b ∈ bs, b.length ≤ 10 := by
  obtain ⟨bs, ds, h1, h2, h3⟩ :=
    genEmbedAux_all_ok embed responses chunks hok (chunks.length + 1) 0 0 (by omega)
  rw [List.drop_zero] at h1 h2
  exact ⟨bs, ds, h1, List.length_map _ _, h2, h3⟩

/-- C6: a 429 never drops the batch and never raises: the loop waits
2000 ms and retries exactly the same batch (the index does not advance),
and under permanent rate limiting it never terminates, for any amount of
fuel. -/
theorem c6_rate_limit_retries_same_batch (embed : String → List Rat)
    (responses : Nat → EmbedOutcome) (chunks : List String) :
    (∀ i callNo fuel, i < chunks.length →
      responses callNo = EmbedOutcome.rateLimited →
      genEmbedAux embed responses chunks i callNo (fuel + 1) =
        (match genEmbedAux embed responses chunks i (callNo + 1) fuel with
         | none => none
         | some (r, bs, ds) => some (r, ((chunks.drop i).take 10) :: bs, 2000 :: ds))) ∧
    ((∀ n, responses n = EmbedOutcome.rateLimited) → chunks ≠ [] →
      ∀ fuel, generateEmbeddingsForChunks embed responses chunks fuel = none) := by
  constructor
  · intro i callNo fuel hi hrl
    have hnle : ¬ chunks.length ≤ i := by omega
    cases hrec : genEmbedAux embed responses chunks i (callNo + 1) fuel with
    | none =>
      unfold genEmbedAux
      rw [if_neg hnle, hrl, hrec]
    | some v =>
      obtain ⟨r, bs, ds⟩ := v
      unfold genEmbedAux
      rw [if_neg hnle, hrl, hrec]
  · intro hrl hne
    have hpos : 0 < chunks.length := List.length_pos.mpr hne
    suffices hsuf : ∀ fuel callNo,
        genEmbedAux embed responses chunks 0 callNo fuel = none by
      intro fuel
      exact hsuf fuel 0
    intro fuel
    induction fuel with
    | zero => intro callNo; rfl
    | succ f ih =>
      intro callNo
      unfold genEmbedAux
      rw [if_neg (by omega), hrl callNo, ih (callNo + 1)]

/-- The ingestion pipeline never reads the status-write-failure flag. -/
theorem ingestPipeline_statusflag {env : IngestEnv} (b : Bool) :
    ingestPipeline {env with statusErrorWriteFails := b} = ingestPipeline env := rfl

/-- C7: whenever the ingestion pipeline fails after processing started,
the handler reports the original error message (status 500,
`success: false`), attempts the status → `error` write for the request's
document, and a failure of that status write does not change the
response. -/
theorem c7_error_status_and_original_error (env : IngestEnv) (msg : String)
    (h : ingestPipeline env = .error msg) :
    (ingestHandler env).1 = ⟨500, false, some msg⟩ ∧
    (∀ d, env.documentId = some d →
      IEffect.statusWrite d "error" ∈ (ingestHandler env).2) ∧
    (ingestHandler {env with statusErrorWriteFails := true}).1 =
      (ingestHandler {env with statusErrorWriteFails := false}).1 := by
  have ht : ingestPipeline {env with statusErrorWriteFails := true} = .error msg := h
  have hf : ingestPipeline {env with statusErrorWriteFails := false} = .error msg := h
  refine ⟨?_, ?_, ?_⟩
  · unfold ingestHandler
    rw [h]
  · intro d hd
    unfold ingestHandler
    rw [h, hd]
    by_cases hb : env.statusErrorWriteFails <;> simp [hb]
  · unfold ingestHandler
    rw [ht, hf]

/-! ## Concrete instances used to exercise the theorems -/

/-- A database with one completed document of `u1` and one stored chunk. -/
def dbOneChunk : DB :=
  ⟨[⟨"d1", "u1", "completed"⟩], [⟨"c1", "d1", "hello world text", []⟩]⟩

/-- A query environment whose user `u1` has no documents at all. -/
def qenvNoDocs : QEnv :=
  ⟨some "u1", fun _ => [], fun _ _ => 0, false, ⟨[], []⟩, fun _ _ => ""⟩

/-- An ingestion environment whose storage download fails. -/
def ienvDownloadFails : IngestEnv :=
  ⟨some "doc1", "f.txt", .error "boom", .ok [], .ok (), true⟩

theorem c1_retrieval_scoping_witness :
    (∃ row ∈ dbOneChunk.document_chunks, row.id = "c1" ∧ row.document_id = "d1") ∧
    (∃ d ∈ dbOneChunk.documents,
      d.id = "d1" ∧ d.uploaded_by = "u1" ∧ d.processing_status = "completed") :=
  c1_retrieval_scoping (fun _ _ => 0) dbOneChunk true [] "u1"
    ⟨"c1", "d1", "hello world text", (1 : Rat) / 2⟩ (by
      have h : findRelevantChunks (fun _ _ => 0) dbOneChunk true [] "u1" =
          [⟨"c1", "d1", "hello world text", (1 : Rat) / 2⟩] := by
        simp [findRelevantChunks, fallbackTextSearch, userCompletedDocs, dbOneChunk]
      rw [h]
      exact List.mem_singleton.mpr rfl)

theorem c2_fallback_guarantee_witness :
    findRelevantChunks (fun _ _ => 0) dbOneChunk true [] "u1" ≠ [] ∧
    (findRelevantChunks (fun _ _ => 0) dbOneChunk true [] "u1").length ≤ 5 ∧
    ∀ c ∈ findRelevantChunks (fun _ _ => 0) dbOneChunk true [] "u1",
      c.similarity = (1 : Rat) / 2 :=
  c2_fallback_guarantee (fun _ _ => 0) dbOneChunk true [] "u1"
    (by decide) (Or.inl rfl) (by decide)

theorem c3_retry_budget_witness :
    generateChatResponse (fun _ => ChatOutcome.rateLimited) =
      (.error "Failed to generate response after maximum attempts",
       [min (1000 * 2 ^ 0) 60000, min (1000 * 2 ^ 1) 60000,
        min (1000 * 2 ^ 2) 60000], 3) ∧
    generateChatResponse (fun _ => ChatOutcome.err "boom") =
      (.error "boom", [1000 * 1, 1000 * 2], 3) :=
  ⟨(c3_retry_budget (fun _ => ChatOutcome.rateLimited)).2.1 (fun _ => rfl),
   (c3_retry_budget (fun _ => ChatOutcome.err "boom")).2.2 "boom" (fun _ => rfl)⟩

theorem c4_empty_context_short_circuit_witness :
    queryChatHandler qenvNoDocs ⟨some "hi", some "u1", some "Bearer t"⟩ =
      (⟨200, .answerB noRelevantInfoMsg []⟩, [.authCheck, .embedQuery, .retrieve]) ∧
    QEffect.synthesize ∉
      (queryChatHandler qenvNoDocs ⟨some "hi", some "u1", some "Bearer t"⟩).2 :=
  c4_empty_context_short_circuit qenvNoDocs ⟨some "hi", some "u1", some "Bearer t"⟩
    "Bearer t" "u1" (by decide) (by decide) rfl rfl rfl rfl

theorem c5_embedding_order_witness :
    ∃ bs ds,
      generateEmbeddingsForChunks (fun _ => [(1 : Rat)]) (fun _ => EmbedOutcome.ok)
        ["alpha", "beta"] (["alpha", "beta"].length + 1) =
        some (.ok (["alpha", "beta"].map (fun _ => [(1 : Rat)])), bs, ds) ∧
      (["alpha", "beta"].map (fun _ => [(1 : Rat)])).length = ["alpha", "beta"].length ∧
      bs.flatten = ["alpha", "beta"] ∧ ∀ b ∈ bs, b.length ≤ 10 :=
  c5_embedding_order (fun _ => [(1 : Rat)]) (fun _ => EmbedOutcome.ok)
    ["alpha", "beta"] (fun _ => rfl)

theorem c6_rate_limit_retries_same_batch_witness :
    (genEmbedAux (fun _ => [(1 : Rat)]) (fun _ => EmbedOutcome.rateLimited)
        ["alpha"] 0 0 (0 + 1) =
      (match genEmbedAux (fun _ => [(1 : Rat)]) (fun _ => EmbedOutcome.rateLimited)
          ["alpha"] 0 (0 + 1) 0 with
       | none => none
       | some (r, bs, ds) =>
         some (r, ((["alpha"].drop 0).take 10) :: bs, 2000 :: ds))) ∧
    generateEmbeddingsForChunks (fun _ => [(1 : Rat)])
      (fun _ => EmbedOutcome.rateLimited) ["alpha"] 7 = none :=
  ⟨(c6_rate_limit_retries_same_batch (fun _ => [(1 : Rat)])
      (fun _ => EmbedOutcome.rateLimited) ["alpha"]).1 0 0 0 (by decide) rfl,
   (c6_rate_limit_retries_same_batch (fun _ => [(1 : Rat)])
      (fun _ => EmbedOutcome.rateLimited) ["alpha"]).2 (fun _ => rfl) (by decide) 7⟩

theorem c7_error_status_and_original_error_witness :
    (ingestHandler ienvDownloadFails).1 =
      ⟨500, false, some "Failed to download file: boom"⟩ ∧
    IEffect.statusWrite "doc1" "error" ∈ (ingestHandler ienvDownloadFails).2 ∧
    (ingestHandler {ienvDownloadFails with statusErrorWriteFails := true}).1 =
      (ingestHandler {ienvDownloadFails with statusErrorWriteFails := false}).1 :=
  ⟨(c7_error_status_and_original_error ienvDownloadFails
      "Failed to download file: boom" rfl).1,
   (c7_error_status_and_original_error ienvDownloadFails
      "Failed to download file: boom" rfl).2.1 "doc1" rfl,
   (c7_error_status_and_original_error ienvDownloadFails
      "Failed to download file: boom" rfl).2.2⟩

theorem c8_chunk_size_bound_witness :
    chunkWithinBound ("Hello there. General Kenobi.".toList) 500 50
      ("Hello there General Kenobi".toList) ∧
    (chunkStep 5 50 ([], " aaaaaa".toList) ("bbbb".toList)).1 =
      [jsTrim (" aaaaaa".toList)] :=
  ⟨(c8_chunk_size_bound ("Hello there. General Kenobi.".toList) 500 50).1
      ("Hello there General Kenobi".toList) (by decide),
   (c8_chunk_size_bound [] 5 50).2
      ([], " aaaaaa".toList) ("bbbb".toList) (by decide) (by decide) (by decide)⟩

theorem c9_chunk_floor_and_empty_input_witness :
    (10 < (jsTrim ("Hello there General Kenobi".toList)).length ∧
      "Hello there General Kenobi".toList ≠ []) ∧
    splitTextIntoChunks ("   ".toList) 500 50 = [] :=
  ⟨(c9_chunk_floor_and_empty_input ("Hello there. General Kenobi.".toList) 500 50).1
      ("Hello there General Kenobi".toList) (by decide),
   (c9_chunk_floor_and_empty_input ("   ".toList) 500 50).2 (by decide)⟩

theorem c10_missing_fields_reject_witness :
    queryChatHandler qenvNoDocs ⟨none, some "u1", none⟩ =
      (⟨400, .errorB "Missing query or userId"⟩, []) :=
  c10_missing_fields_reject qenvNoDocs ⟨none, some "u1", none⟩ (Or.inl rfl)
